import Mathlib

set_option maxRecDepth 8192

namespace AwsCfnCustomResource

/-! Shallow embedding of `src/src/index.ts` (the Proxy-based version of
`aws-cloudformation-custom-resource`): the `CustomResource` lifecycle engine,
its properties proxy, response construction and delivery bookkeeping. -/

/-! Model of JS values as far as the engine inspects them: a rejection value is
either an `Error` (carrying its `.message`), a plain string, or anything else,
which the engine only ever touches through `JSON.stringify`; for that last kind
we carry the `JSON.stringify` rendering directly. -/

inductive JsValue where
  | error (message : String)
  | str (s : String)
  | other (json : String)
deriving DecidableEq, Repr

/-! Model of `JSON.stringify` on strings: the double-quoted form with the
escaping performed by the JS builtin (quote, backslash, and control characters;
all other characters are emitted verbatim). -/

/-- Lowercase hex digit for a nibble, as used by `JSON.stringify`'s
form of control-character escapes. -/
def hexDigit (n : Nat) : Char :=
  if n < 10 then Char.ofNat (48 + n) else Char.ofNat (87 + n)

/-- Inverse of `hexDigit` on single characters. -/
def unhexDigit (c : Char) : Nat :=
  if c.toNat ≤ 57 then c.toNat - 48 else c.toNat - 87

/-- Escape sequence `JSON.stringify` emits for a single character inside a
string literal. -/
def jsonEscapeChar (c : Char) : List Char :=
  if c = '"' then ['\\', '"']
  else if c = '\\' then ['\\', '\\']
  else if c = '\x08' then ['\\', 'b']
  else if c = '\x0c' then ['\\', 'f']
  else if c = '\n' then ['\\', 'n']
  else if c = '\r' then ['\\', 'r']
  else if c = '\t' then ['\\', 't']
  else if c.toNat < 32 then
    ['\\', 'u', '0', '0', hexDigit (c.toNat / 16), hexDigit (c.toNat % 16)]
  else [c]

/-- Rendering of `JSON.stringify(s)` for a JS string `s`. -/
def jsonStringifyString (s : String) : String :=
  String.mk ('"' :: (s.data.map jsonEscapeChar).flatten ++ ['"'])

/-- Decoder for the first escape unit of an escaped character stream; used only
to establish that the escaping is injective. -/
def unescapeHead : List Char → Option (Char × List Char)
  | [] => none
  | c :: rest =>
    if c = '\\' then
      match rest with
      | [] => none
      | d :: rest2 =>
        if d = '"' then some ('"', rest2)
        else if d = '\\' then some ('\\', rest2)
        else if d = 'b' then some ('\x08', rest2)
        else if d = 'f' then some ('\x0c', rest2)
        else if d = 'n' then some ('\n', rest2)
        else if d = 'r' then some ('\r', rest2)
        else if d = 't' then some ('\t', rest2)
        else if d = 'u' then
          match rest2 with
          | h3 :: h4 :: h1 :: h2 :: rest3 =>
            if h3 = '0' ∧ h4 = '0' then
              some (Char.ofNat (16 * unhexDigit h1 + unhexDigit h2), rest3)
            else none
          | _ => none
        else none
    else some (c, rest)

/-! Data model of the event and the engine state. JS objects with string keys
and string values are modelled as association lists with unique keys; lookup
returns the first matching entry, assignment updates it in place or appends. -/

/-- JS `Record<string, string>` as an association list. -/
abbrev PropMap := List (String × String)

/-- Property access `m[k]` on a JS string record: `undefined` becomes `none`. -/
def propGet (m : PropMap) (k : String) : Option String :=
  (m.find? (fun p => p.1 == k)).map (fun p => p.2)

/-- Assignment `m[k] = v` on a JS object: an existing key keeps its position and
gets the new value, a new key is appended. -/
def recordSet (m : PropMap) (k v : String) : PropMap :=
  if m.any (fun p => p.1 == k) then
    m.map (fun p => if p.1 == k then (k, v) else p)
  else m ++ [(k, v)]

/-- The event passed to the Lambda handler (type `Event` in the source).
`RequestType` is kept as a raw string: the TS union says Create/Update/Delete
but `handle` has an explicit branch for any other value arriving at runtime. -/
structure Event where
  PhysicalResourceId : Option String
  StackId : String
  RequestId : String
  LogicalResourceId : String
  ResponseURL : Option String
  RequestType : String
  ResourceProperties : PropMap
  OldResourceProperties : Option PropMap
deriving DecidableEq, Repr

/-- The slice of the Lambda `Context` the engine reads: the log stream name
(used in `Reason` and as physical-ID fallback) and the value
`getRemainingTimeInMillis()` returns when the timeout is armed. -/
structure Context where
  logStreamName : String
  remainingTimeMillis : Nat
deriving DecidableEq, Repr

/-! Properties proxy (`propertiesProxyHandler`, source lines 197-245). Accessing
`resource.properties.key` yields a second-level proxy; its `value`, `changed`
and `before` reads are modelled as the three functions below. The proxy never
consults `event.RequestType`. -/

/-- Model of `JSON.stringify` applied to a possibly-undefined string:
`JSON.stringify(undefined)` is `undefined` (`none`), otherwise the quoted
escaped rendering. -/
def jsStringifyOptString : Option String → Option String
  | none => none
  | some s => some (jsonStringifyString s)

/-- Read of `.value`: `target[propertyKey]`. -/
def propertyValue (e : Event) (key : String) : Option String :=
  propGet e.ResourceProperties key

/-- Read of `.before`: `this.event.OldResourceProperties?.[propertyKey]`. -/
def propertyBefore (e : Event) (key : String) : Option String :=
  e.OldResourceProperties.bind (fun m => propGet m key)

/-- Read of `.changed`:
`JSON.stringify(before) !== JSON.stringify(newValue)` where `before` is the
old entry (possibly undefined) and `newValue` is `target[propertyKey]`. -/
def propertyChanged (e : Event) (key : String) : Bool :=
  decide (jsStringifyOptString (propertyBefore e key) ≠
    jsStringifyOptString (propertyValue e key))

/-! Engine state: the mutable instance fields of `CustomResource` that the
response construction reads, plus the immutable event and context. -/

structure CRState where
  event : Event
  context : Context
  responseData : PropMap
  physicalResourceId : Option String
  noEcho : Bool
deriving DecidableEq, Repr

/-- Method `addResponseValue(key, value)`: `this.responseData[key] = value`. -/
def addResponseValue (st : CRState) (key : String) (value : String) : CRState :=
  { st with responseData := recordSet st.responseData key value }

/-- Method `setPhysicalResourceId(value)`. -/
def setPhysicalResourceId (st : CRState) (value : String) : CRState :=
  { st with physicalResourceId := some value }

/-- Method `setNoEcho(value)`. -/
def setNoEcho (st : CRState) (value : Bool) : CRState :=
  { st with noEcho := value }

/-- State established by the constructor: `responseData = {}`, `noEcho = false`,
and `setPhysicalResourceId(event.PhysicalResourceId)` when the event carries a
(truthy) physical resource ID. An empty string is falsy in JS, so the guard
`if (this.event.PhysicalResourceId)` skips it; the guard is modelled as
presence of a non-empty string. -/
def initialState (e : Event) (ctx : Context) : CRState :=
  let st : CRState :=
    { event := e, context := ctx, responseData := [],
      physicalResourceId := none, noEcho := false }
  match e.PhysicalResourceId with
  | some v => if v = "" then st else setPhysicalResourceId st v
  | none => st

/-! Response construction (`sendResponse`, source lines 377-444). -/

/-- The JSON body object sent to CloudFormation. -/
structure ResponseBody where
  Status : String
  Reason : String
  PhysicalResourceId : String
  StackId : String
  RequestId : String
  LogicalResourceId : String
  Data : PropMap
  NoEcho : Bool
deriving DecidableEq, Repr

/-- The `body` object literal in `sendResponse`: `responseStatus` and
`responseData` are the two parameters of `sendResponse` (the reason text). -/
def sendResponseBody (st : CRState) (responseStatus responseData : String) :
    ResponseBody :=
  { Status := responseStatus,
    Reason := responseData ++ " | " ++
      (if responseStatus == "FAILED" then "Full error" else "Details") ++
      " in CloudWatch " ++ st.context.logStreamName,
    PhysicalResourceId :=
      st.physicalResourceId.getD
        ((propGet st.event.ResourceProperties "name").getD
          st.context.logStreamName),
    StackId := st.event.StackId,
    RequestId := st.event.RequestId,
    LogicalResourceId := st.event.LogicalResourceId,
    Data := st.responseData,
    NoEcho := st.noEcho }

/-- Serialization `JSON.stringify(body)` of a string record, in insertion
order. -/
def jsonStringifyPropMap (m : PropMap) : String :=
  "\x7b" ++ String.intercalate ","
    (m.map (fun p => jsonStringifyString p.1 ++ ":" ++ jsonStringifyString p.2))
    ++ "\x7d"

/-- Serialization of a JS boolean. -/
def jsonStringifyBool (b : Bool) : String := if b then "true" else "false"

/-- Serialization `JSON.stringify(body)` of the response body object, with the
keys in the insertion order of the object literal. -/
def jsonStringifyResponseBody (b : ResponseBody) : String :=
  "\x7b\"Status\":" ++ jsonStringifyString b.Status ++
  ",\"Reason\":" ++ jsonStringifyString b.Reason ++
  ",\"PhysicalResourceId\":" ++ jsonStringifyString b.PhysicalResourceId ++
  ",\"StackId\":" ++ jsonStringifyString b.StackId ++
  ",\"RequestId\":" ++ jsonStringifyString b.RequestId ++
  ",\"LogicalResourceId\":" ++ jsonStringifyString b.LogicalResourceId ++
  ",\"Data\":" ++ jsonStringifyPropMap b.Data ++
  ",\"NoEcho\":" ++ jsonStringifyBool b.NoEcho ++ "\x7d"

/-- Number of UTF-16 code units of a string: what the JS expression
`bodyString.length` evaluates to. -/
def utf16Length (s : String) : Nat :=
  (s.data.map (fun c => if c.toNat < 65536 then 1 else 2)).sum

/-- Number of bytes of the UTF-8 encoding of one character. -/
def jsUtf8Size (c : Char) : Nat :=
  if c.toNat < 128 then 1
  else if c.toNat < 2048 then 2
  else if c.toNat < 65536 then 3
  else 4

/-- Number of bytes of the UTF-8 encoding of a string: what Node actually
transmits for `request.write(bodyString)` (default utf8 encoding). -/
def utf8ByteLength (s : String) : Nat :=
  (s.data.map jsUtf8Size).sum

/-- Minimal model of WHATWG `new URL` for the https callback URLs used here:
drops the `https://` scheme and splits at the first `/` into the hostname and
the path-plus-query (`url.pathname + url.search`; an empty path is
normalized to `/`). -/
def splitUrl (u : String) : String × String :=
  let rest := if u.startsWith "https://" then u.drop 8 else u
  let hostname := rest.takeWhile (fun c => c ≠ '/')
  let path := rest.dropWhile (fun c => c ≠ '/')
  (hostname, if path = "" then "/" else path)

/-- The `options` object passed to `https.request`: note the headers set
`content-type` to the empty string and `content-length` to
`bodyString.length`, the UTF-16 code-unit count. -/
structure RequestOptions where
  hostname : String
  port : Nat
  path : String
  method : String
  contentType : String
  contentLength : Nat
deriving DecidableEq, Repr

/-- Construction of the `options` object in `sendResponse` for the body about
to be transmitted. `this.event.ResponseURL!` is a non-null assertion; at every
call site `handle` has already checked presence, `getD ""` covers the type. -/
def sendResponseOptions (st : CRState) (responseStatus responseData : String) :
    RequestOptions :=
  let bodyString :=
    jsonStringifyResponseBody (sendResponseBody st responseStatus responseData)
  let url := splitUrl (st.event.ResponseURL.getD "")
  { hostname := url.1, port := 443, path := url.2, method := "PUT",
    contentType := "", contentLength := utf16Length bodyString }

/-! Invocation trace model. The constructor schedules `handle()` on the next
tick; `handle` arms the timeout timer and invokes the selected handler. Three
independently scheduled continuations can call `sendResponse`: the handler's
`.then` continuation, its `.catch` continuation, and the timeout timer's
callback. The model makes the interleaving explicit: a `Schedule` says whether
the handler settlement or the armed timer runs first when both are pending. -/

/-- Behavior of a supplied `Logger` as far as the engine can observe it: the
engine ignores every return value, so only whether each method throws (and with
what) matters. `StandardLogger` methods only forward to the console and never
throw. -/
structure LoggerBehavior where
  infoThrows : Option JsValue
  debugThrows : Option JsValue
  errorThrows : Option JsValue
deriving DecidableEq, Repr

/-- A logger none of whose methods throws, such as `StandardLogger`. -/
def LoggerBehavior.noThrow (l : LoggerBehavior) : Prop :=
  l.infoThrows = none ∧ l.debugThrows = none ∧ l.errorThrows = none

/-- The behavior of `StandardLogger`. -/
def standardLoggerBehavior : LoggerBehavior := ⟨none, none, none⟩

/-- One invocation of the completion callback passed by the Lambda runtime. -/
inductive CallbackCall where
  | success (result : String)
  | failure (message : String)
deriving DecidableEq, Repr

/-- How the selected user handler behaves: it can throw before returning a
promise, return a promise that settles (resolves or rejects), or hang. -/
inductive HandlerBehavior where
  | syncThrow (e : JsValue)
  | settles (r : Except JsValue Unit)
  | neverSettles
deriving Repr

/-- Which pending continuation runs first when both the handler settlement and
the armed timeout timer are due. -/
inductive Schedule where
  | handlerFirst
  | timerFirst
deriving DecidableEq, Repr

/-- Mutations the handler performs on the resource before it settles or throws:
`addResponseValue`, `setPhysicalResourceId` and `setNoEcho` calls, each in call
order. The three methods touch distinct fields, so grouping them per method is
faithful to any interleaving. -/
structure HandlerEffects where
  addedValues : List (String × String)
  physicalResourceIdSets : List String
  noEchoSets : List Bool
deriving DecidableEq, Repr

/-- Observable result of one invocation. -/
structure RunResult where
  sendCalls : List (String × String)
  responses : List ResponseBody
  requests : List RequestOptions
  armedDelays : List Int
  callbackCalls : List CallbackCall
  uncaught : List JsValue
  handlerInvoked : Bool
deriving DecidableEq, Repr

/-- Effects accumulated by one synchronous burst of engine code.
`timerCleared` records whether `clearTimeout(this.timeoutTimer)` ran. -/
structure Effects where
  sendCalls : List (String × String)
  responses : List ResponseBody
  requests : List RequestOptions
  callbackCalls : List CallbackCall
  uncaught : List JsValue
  timerCleared : Bool
deriving DecidableEq, Repr

/-- Effects of code that did nothing. -/
def Effects.empty : Effects :=
  { sendCalls := [], responses := [], requests := [],
    callbackCalls := [], uncaught := [], timerCleared := false }

/-- Sequencing of two effect bursts. -/
def Effects.seq (a b : Effects) : Effects :=
  { sendCalls := a.sendCalls ++ b.sendCalls,
    responses := a.responses ++ b.responses,
    requests := a.requests ++ b.requests,
    callbackCalls := a.callbackCalls ++ b.callbackCalls,
    uncaught := a.uncaught ++ b.uncaught,
    timerCleared := a.timerCleared || b.timerCleared }

/-- The error-message extraction in `handleError`: `err.message` for an
`Error`, the string itself for a string, and
`` `Unknown error: ${JSON.stringify(err)}` `` otherwise. -/
def errorMessage : JsValue → String
  | JsValue.error m => m
  | JsValue.str s => s
  | JsValue.other j => "Unknown error: " ++ j

/-- Outcome of one call of `sendResponse`: the first `logger.debug` runs before
`clearTimeout`, `logger.info` after it; only when neither throws is the body
built, the request issued and (on the https response) the completion callback
invoked with `(null, 'done')`. The transport itself is an external collaborator
and is modelled as delivering every issued request. -/
inductive SendOutcome where
  | threwBeforeClear (e : JsValue)
  | threwAfterClear (e : JsValue)
  | sent (call : String × String) (body : ResponseBody) (opts : RequestOptions)
deriving DecidableEq, Repr

/-- One call of `sendResponse(responseStatus, responseData)`. -/
def sendResponseRun (logger : LoggerBehavior) (st : CRState)
    (responseStatus responseData : String) : SendOutcome :=
  match logger.debugThrows with
  | some e => SendOutcome.threwBeforeClear e
  | none =>
    match logger.infoThrows with
    | some e => SendOutcome.threwAfterClear e
    | none =>
      SendOutcome.sent (responseStatus, responseData)
        (sendResponseBody st responseStatus responseData)
        (sendResponseOptions st responseStatus responseData)

/-- Effects of a completed transmission: the body goes out and the https
response invokes `callback(null, 'done')`. -/
def sentEffects (call : String × String) (body : ResponseBody)
    (opts : RequestOptions) : Effects :=
  { sendCalls := [call], responses := [body], requests := [opts],
    callbackCalls := [CallbackCall.success "done"], uncaught := [],
    timerCleared := true }

/-- Effects of `handleError(err)` running as the last catcher in its context
(`.catch(err => this.handleError(err))`, or the `catch` block in `handle`):
`console.log(err)` never throws, then `logger.error` may throw, then
`sendResponse('FAILED', errorMessage err)`; any throw out of this code reaches
the event loop as an uncaught error / unhandled rejection. -/
def catchEffects (logger : LoggerBehavior) (st : CRState) (err : JsValue) :
    Effects :=
  match logger.errorThrows with
  | some e2 => { Effects.empty with uncaught := [e2] }
  | none =>
    match sendResponseRun logger st "FAILED" (errorMessage err) with
    | SendOutcome.sent call body opts => sentEffects call body opts
    | SendOutcome.threwBeforeClear e2 =>
      { Effects.empty with uncaught := [e2] }
    | SendOutcome.threwAfterClear e2 =>
      { Effects.empty with uncaught := [e2], timerCleared := true }

/-- Effects of a `sendResponse` call whose throw is routed to `handleError`
(the `.then` success continuation backed by `.catch`, and the direct call in
`handle`'s `try` block). -/
def trySendEffects (logger : LoggerBehavior) (st : CRState)
    (status reason : String) : Effects :=
  match sendResponseRun logger st status reason with
  | SendOutcome.sent call body opts => sentEffects call body opts
  | SendOutcome.threwBeforeClear e => catchEffects logger st e
  | SendOutcome.threwAfterClear e =>
    { catchEffects logger st e with timerCleared := true }

/-- Effects of the timeout timer firing (`timeout`, source lines 359-372):
`logger.error('Timeout FAILURE!')`, then a `new Promise` whose executor calls
`sendResponse('FAILED', 'Function timed out')`. The executor never resolves
the promise, so the chained `callback(new Error('Function timed out'))` is
unreachable; if the executor throws, the promise rejects and the attached
`.catch` runs `handleError`. -/
def timerFireEffects (logger : LoggerBehavior) (st : CRState) : Effects :=
  match logger.errorThrows with
  | some e => { Effects.empty with uncaught := [e] }
  | none =>
    match sendResponseRun logger st "FAILED" "Function timed out" with
    | SendOutcome.sent call body opts => sentEffects call body opts
    | SendOutcome.threwBeforeClear e => catchEffects logger st e
    | SendOutcome.threwAfterClear e =>
      { catchEffects logger st e with timerCleared := true }

/-- Effects of the handler's settlement continuation: on resolution,
`sendResponse('SUCCESS', RequestType + ' completed successfully')` inside
`.then` (throws routed to `.catch`); on rejection, `.catch` runs
`handleError`. -/
def settlementEffects (logger : LoggerBehavior) (st : CRState)
    (requestType : String) (r : Except JsValue Unit) : Effects :=
  match r with
  | Except.ok _ =>
    trySendEffects logger st "SUCCESS" (requestType ++ " completed successfully")
  | Except.error e => catchEffects logger st e

/-- Engine state visible to the response paths after the handler ran its
mutations. -/
def stateAfterHandler (ev : Event) (ctx : Context) (he : HandlerEffects) :
    CRState :=
  let st0 := initialState ev ctx
  let st1 := he.addedValues.foldl (fun st kv => addResponseValue st kv.1 kv.2) st0
  let st2 := he.physicalResourceIdSets.foldl
    (fun st v => setPhysicalResourceId st v) st1
  he.noEchoSets.foldl (fun st b => setNoEcho st b) st2

/-- A run that produced nothing. -/
def emptyRunResult : RunResult :=
  { sendCalls := [], responses := [], requests := [], armedDelays := [],
    callbackCalls := [], uncaught := [], handlerInvoked := false }

/-- Assembly of the final run result. -/
def finishRun (armed : List Int) (handlerInvoked : Bool) (eff : Effects) :
    RunResult :=
  { sendCalls := eff.sendCalls, responses := eff.responses,
    requests := eff.requests, armedDelays := armed,
    callbackCalls := eff.callbackCalls, uncaught := eff.uncaught,
    handlerInvoked := handlerInvoked }

/-- Effects of the dispatch once a known request type selected a handler:
the `try` block invokes it and wires `.then`/`.catch`; afterwards a
still-armed timer fires. -/
def dispatchEffects (logger : LoggerBehavior) (st : CRState)
    (requestType : String) (hb : HandlerBehavior) (sched : Schedule) : Effects :=
  match hb with
  | HandlerBehavior.syncThrow e =>
    let e1 := catchEffects logger st e
    if e1.timerCleared then e1 else e1.seq (timerFireEffects logger st)
  | HandlerBehavior.neverSettles => timerFireEffects logger st
  | HandlerBehavior.settles r =>
    match sched with
    | Schedule.handlerFirst =>
      let e1 := settlementEffects logger st requestType r
      if e1.timerCleared then e1 else e1.seq (timerFireEffects logger st)
    | Schedule.timerFirst =>
      (timerFireEffects logger st).seq
        (settlementEffects logger st requestType r)

/-- One whole invocation (`handle`, source lines 294-338, scheduled by the
constructor). Order of operations: the `ResponseURL` presence check (its
`throw` escapes the scheduled call and reaches the event loop uncaught), then
`logger.info('REQUEST RECEIVED: ...')` — still before the `try` block and
before `timeout()` arms the timer — then the timer is armed with delay
`getRemainingTimeInMillis() - 1000`, then the dispatch on `RequestType`. When
a phase ends without the timer having been cleared, the armed timer eventually
fires. -/
def run (ev : Event) (ctx : Context) (logger : LoggerBehavior)
    (hb : HandlerBehavior) (sched : Schedule) (he : HandlerEffects) :
    RunResult :=
  match ev.ResponseURL with
  | none =>
    { emptyRunResult with uncaught := [JsValue.error "ResponseURL missing"] }
  | some _ =>
    match logger.infoThrows with
    | some e => { emptyRunResult with uncaught := [e] }
    | none =>
      let armed : List Int := [(ctx.remainingTimeMillis : Int) - 1000]
      if ev.RequestType = "Create" ∨ ev.RequestType = "Update" ∨
          ev.RequestType = "Delete" then
        let st := stateAfterHandler ev ctx he
        finishRun armed true (dispatchEffects logger st ev.RequestType hb sched)
      else
        let st0 := initialState ev ctx
        let e1 := trySendEffects logger st0 "FAILED"
          ("Unexpected request type: " ++ ev.RequestType)
        let eff := if e1.timerCleared then e1
          else e1.seq (timerFireEffects logger st0)
        finishRun armed false eff

/-! Derived notions and concrete fixtures used by the theorems below. -/

/-- The `responseData` map resulting from a sequence of
`addResponseValue(key, value)` calls within one invocation, starting from the
empty map the constructor establishes. -/
def applyResponseValues (calls : List (String × String)) : PropMap :=
  calls.foldl (fun acc kv => recordSet acc kv.1 kv.2) []

/-- Value of the last call with a given key in a sequence of
`addResponseValue` calls, if any. -/
def lastWrite (calls : List (String × String)) (k : String) : Option String :=
  (calls.reverse.find? (fun p => p.1 == k)).map (fun p => p.2)

/-- A well-formed Create event fixture. -/
def sampleCreateEvent : Event :=
  { PhysicalResourceId := none, StackId := "stack-1", RequestId := "req-1",
    LogicalResourceId := "logical-1",
    ResponseURL := some "https://example.com/cb?x=1",
    RequestType := "Create", ResourceProperties := [("name", "p1")],
    OldResourceProperties := none }

/-- A Create event that (mistakenly) carries previous properties differing
from the current ones. -/
def sampleCreateEventWithOld : Event :=
  { sampleCreateEvent with
    ResourceProperties := [("a", "2")],
    OldResourceProperties := some [("a", "1")] }

/-- An Update event with a property present on both sides with differing
values. -/
def sampleUpdateEvent : Event :=
  { sampleCreateEvent with
    RequestType := "Update",
    ResourceProperties := [("a", "2")],
    OldResourceProperties := some [("a", "1")] }

/-- An event with `ResponseURL` absent. -/
def sampleEventNoUrl : Event :=
  { sampleCreateEvent with ResponseURL := none }

/-- A context fixture: 30 seconds of budget remaining. -/
def sampleContext : Context :=
  { logStreamName := "stream-1", remainingTimeMillis := 30000 }

/-- A handler that performed no mutations. -/
def noHandlerEffects : HandlerEffects :=
  { addedValues := [], physicalResourceIdSets := [], noEchoSets := [] }

/-- A logger whose `info` method throws. -/
def throwingLogger : LoggerBehavior :=
  ⟨some (JsValue.error "logger throws"), none, none⟩

/-- An engine state whose log stream name contains a non-ASCII character
(2 bytes in UTF-8, one UTF-16 code unit). -/
def sampleStateNonAscii : CRState :=
  { event := sampleCreateEvent,
    context := { logStreamName := "stream-é", remainingTimeMillis := 30000 },
    responseData := [], physicalResourceId := some "pid", noEcho := false }

/-- An engine state with an explicitly set physical resource ID. -/
def sampleStateWithPid : CRState :=
  { event := sampleCreateEvent, context := sampleContext,
    responseData := [], physicalResourceId := some "pid-1", noEcho := false }

/-- An engine state with no physical resource ID set; the event properties
carry a `name` entry. -/
def sampleStateNoPid : CRState :=
  { sampleStateWithPid with physicalResourceId := none }

/-- An engine state with no physical resource ID and no `name` property. -/
def sampleStateNoPidNoName : CRState :=
  { sampleStateNoPid with
    event := { sampleCreateEvent with ResourceProperties := ([] : PropMap) } }

/-- An Update event that carries a physical resource ID. -/
def sampleUpdateEventWithPid : Event :=
  { sampleUpdateEvent with PhysicalResourceId := some "pid-7" }

/-! Supporting lemmas: injectivity of the `JSON.stringify` string escaping. -/

theorem unhex_hex : ∀ n : Fin 16, unhexDigit (hexDigit n.val) = n.val := by decide

theorem unhex_hex_of_lt {n : Nat} (h : n < 16) : unhexDigit (hexDigit n) = n :=
  unhex_hex ⟨n, h⟩

theorem jsonEscapeChar_ne_nil (c : Char) : jsonEscapeChar c ≠ [] := by
  unfold jsonEscapeChar
  split_ifs <;> simp

theorem unescapeHead_escape (c : Char) (rest : List Char) :
    unescapeHead (jsonEscapeChar c ++ rest) = some (c, rest) := by
  unfold jsonEscapeChar
  split_ifs with h1 h2 h3 h4 h5 h6 h7 h8
  · subst h1; rfl
  · subst h2; rfl
  · subst h3; rfl
  · subst h4; rfl
  · subst h5; rfl
  · subst h6; rfl
  · subst h7; rfl
  · have hdiv : c.toNat / 16 < 16 := by omega
    have hmod : c.toNat % 16 < 16 := Nat.mod_lt _ (by omega)
    have hred : unescapeHead
        (('\\' :: 'u' :: '0' :: '0' :: hexDigit (c.toNat / 16) ::
          hexDigit (c.toNat % 16) :: []) ++ rest)
        = some (Char.ofNat
            (16 * unhexDigit (hexDigit (c.toNat / 16)) +
              unhexDigit (hexDigit (c.toNat % 16))), rest) := rfl
    rw [hred, unhex_hex_of_lt hdiv, unhex_hex_of_lt hmod]
    have hval : 16 * (c.toNat / 16) + c.toNat % 16 = c.toNat := by omega
    rw [hval, Char.ofNat_toNat]
  · simp only [List.singleton_append, unescapeHead]
    rw [if_neg h2]

theorem escape_head_cancel {c1 c2 : Char} {r1 r2 : List Char}
    (h : jsonEscapeChar c1 ++ r1 = jsonEscapeChar c2 ++ r2) :
    c1 = c2 ∧ r1 = r2 := by
  have h1 := unescapeHead_escape c1 r1
  rw [h, unescapeHead_escape c2 r2] at h1
  injection h1 with h3
  exact ⟨(congrArg Prod.fst h3).symm, (congrArg Prod.snd h3).symm⟩

theorem joinEscape_injective :
    ∀ l1 l2 : List Char,
      (l1.map jsonEscapeChar).flatten = (l2.map jsonEscapeChar).flatten →
        l1 = l2 := by
  intro l1
  induction l1 with
  | nil =>
    intro l2 h
    cases l2 with
    | nil => rfl
    | cons c t =>
      simp only [List.map_nil, List.flatten, List.map_cons,
        List.flatten_cons] at h
      exact absurd (List.append_eq_nil.mp h.symm).1 (jsonEscapeChar_ne_nil c)
  | cons c t ih =>
    intro l2 h
    cases l2 with
    | nil =>
      simp only [List.map_nil, List.flatten, List.map_cons,
        List.flatten_cons] at h
      exact absurd (List.append_eq_nil.mp h).1 (jsonEscapeChar_ne_nil c)
    | cons c2 t2 =>
      simp only [List.map_cons, List.flatten_cons] at h
      obtain ⟨hc, ht⟩ := escape_head_cancel h
      rw [hc, ih t2 ht]

theorem jsonStringifyString_injective {s t : String}
    (h : jsonStringifyString s = jsonStringifyString t) : s = t := by
  cases s with
  | mk ls =>
    cases t with
    | mk lt =>
      unfold jsonStringifyString at h
      have h1 : '"' :: (ls.map jsonEscapeChar).flatten ++ ['"'] =
          '"' :: (lt.map jsonEscapeChar).flatten ++ ['"'] :=
        congrArg String.data h
      simp only [List.cons_append, List.cons.injEq, true_and] at h1
      have h2 := (List.append_inj' h1 rfl).1
      rw [joinEscape_injective ls lt h2]

/-! Supporting lemmas: lookup after assignment on the JS record model. -/

theorem propGet_append (m1 m2 : PropMap) (k : String) :
    propGet (m1 ++ m2) k = (propGet m1 k).or (propGet m2 k) := by
  unfold propGet
  rw [List.find?_append]
  cases List.find? (fun p => p.1 == k) m1 <;> rfl

theorem propGet_map_replace (m : PropMap) (k v : String) :
    propGet (m.map (fun p => if p.1 == k then (k, v) else p)) k
      = if m.any (fun p => p.1 == k) then some v else none := by
  induction m with
  | nil => rfl
  | cons p m ih =>
    simp only [List.map_cons, List.any_cons]
    by_cases hp : p.1 = k
    · have h1 : (p.1 == k) = true := beq_iff_eq.mpr hp
      simp only [h1, if_true, Bool.true_or]
      unfold propGet
      rw [List.find?_cons_of_pos _ (by simp)]
      rfl
    · have h1 : (p.1 == k) = false := beq_eq_false_iff_ne.mpr hp
      simp only [h1, Bool.false_or, if_false]
      unfold propGet
      rw [List.find?_cons_of_neg _ (by simp [h1])]
      exact ih

theorem propGet_map_replace_ne (m : PropMap) (k v k' : String) (hk : k' ≠ k) :
    propGet (m.map (fun p => if p.1 == k then (k, v) else p)) k'
      = propGet m k' := by
  induction m with
  | nil => rfl
  | cons p m ih =>
    simp only [List.map_cons]
    by_cases hp : p.1 = k
    · have h1 : (p.1 == k) = true := beq_iff_eq.mpr hp
      have h2 : (k == k') = false :=
        beq_eq_false_iff_ne.mpr (fun h => hk h.symm)
      have h3 : (p.1 == k') = false :=
        beq_eq_false_iff_ne.mpr (by rw [hp]; exact fun h => hk h.symm)
      simp only [h1, if_true]
      unfold propGet
      rw [List.find?_cons_of_neg _ (by simp [h2]),
        List.find?_cons_of_neg _ (by simp [h3])]
      exact ih
    · have h1 : (p.1 == k) = false := beq_eq_false_iff_ne.mpr hp
      simp only [h1, if_false]
      by_cases hp2 : p.1 = k'
      · have h2 : (p.1 == k') = true := beq_iff_eq.mpr hp2
        unfold propGet
        rw [List.find?_cons_of_pos _ (by simp [h2]),
          List.find?_cons_of_pos _ (by simp [h2])]
        simp [h1]
      · have h2 : (p.1 == k') = false := beq_eq_false_iff_ne.mpr hp2
        unfold propGet
        rw [List.find?_cons_of_neg _ (by simp [h2]),
          List.find?_cons_of_neg _ (by simp [h2])]
        exact ih

theorem propGet_recordSet (m : PropMap) (k v k' : String) :
    propGet (recordSet m k v) k' = if k' = k then some v else propGet m k' := by
  unfold recordSet
  by_cases hmem : m.any (fun p => p.1 == k)
  · rw [if_pos hmem]
    by_cases hk : k' = k
    · subst hk
      rw [propGet_map_replace, if_pos hmem, if_pos rfl]
    · rw [propGet_map_replace_ne m k v k' hk, if_neg hk]
  · rw [if_neg hmem, propGet_append]
    by_cases hk : k' = k
    · subst hk
      have hnone : propGet m k' = none := by
        unfold propGet
        rw [List.find?_eq_none.mpr]
        · rfl
        · intro p hp
          have := (List.any_eq_true.not.mp hmem)
          push_neg at this
          exact by simpa using this p hp
      rw [hnone, if_pos rfl]
      unfold propGet
      rw [List.find?_cons_of_pos _ (by simp)]
      rfl
    · rw [if_neg hk]
      have hnone2 : propGet [(k, v)] k' = none := by
        unfold propGet
        rw [List.find?_cons_of_neg _ (by simp [beq_eq_false_iff_ne.mpr
          (fun h => hk h.symm)])]
        rfl
      rw [hnone2, Option.or_none]

theorem foldl_recordSet_lookup (calls : List (String × String)) (m : PropMap)
    (k : String) :
    propGet (calls.foldl (fun acc kv => recordSet acc kv.1 kv.2) m) k =
      ((calls.reverse.find? (fun p => p.1 == k)).map (fun p => p.2)).or
        (propGet m k) := by
  induction calls generalizing m with
  | nil => simp
  | cons a calls ih =>
    simp only [List.foldl_cons, List.reverse_cons, List.find?_append]
    rw [ih]
    cases hfind : calls.reverse.find? (fun p => p.1 == k) with
    | some p => simp [hfind]
    | none =>
      simp only [hfind, Option.map_none, Option.none_or]
      rw [propGet_recordSet]
      by_cases hak : k = a.1
      · have h1 : (a.1 == k) = true := beq_iff_eq.mpr hak.symm
        simp [if_pos hak, List.find?, h1]
      · have h1 : (a.1 == k) = false :=
          beq_eq_false_iff_ne.mpr (fun h => hak h.symm)
        simp [if_neg hak, List.find?, h1]

/-! Supporting lemma: for a present callback URL, a non-throwing `info` method
and a known request type, a run is the dispatch preceded by arming the timer
once. -/

theorem run_valid (ev : Event) (ctx : Context) (logger : LoggerBehavior)
    (hb : HandlerBehavior) (sched : Schedule) (he : HandlerEffects) (u : String)
    (hurl : ev.ResponseURL = some u) (hinfo : logger.infoThrows = none)
    (hrt : ev.RequestType = "Create" ∨ ev.RequestType = "Update" ∨
      ev.RequestType = "Delete") :
    run ev ctx logger hb sched he =
      finishRun [(ctx.remainingTimeMillis : Int) - 1000] true
        (dispatchEffects logger (stateAfterHandler ev ctx he) ev.RequestType hb
          sched) := by
  unfold run
  rw [hurl, hinfo, if_pos hrt]

/-- C4: for every event whose `ResponseURL` is absent, the invocation is
immediately and fatally terminal: `handle` throws `ResponseURL missing` to the
event loop, no handler function is invoked, no timeout is armed, and no
response is transmitted. -/
theorem c4_missing_response_url (ev : Event) (ctx : Context)
    (logger : LoggerBehavior) (hb : HandlerBehavior) (sched : Schedule)
    (he : HandlerEffects) (h : ev.ResponseURL = none) :
    (run ev ctx logger hb sched he).handlerInvoked = false
    ∧ (run ev ctx logger hb sched he).armedDelays = []
    ∧ (run ev ctx logger hb sched he).responses = []
    ∧ (run ev ctx logger hb sched he).sendCalls = []
    ∧ (run ev ctx logger hb sched he).uncaught
        = [JsValue.error "ResponseURL missing"] := by
  have hrun : run ev ctx logger hb sched he =
      { emptyRunResult with
        uncaught := [JsValue.error "ResponseURL missing"] } := by
    unfold run
    rw [h]
  rw [hrun]
  exact ⟨rfl, rfl, rfl, rfl, rfl⟩

theorem c4_missing_response_url_witness :
    (run sampleEventNoUrl sampleContext standardLoggerBehavior
        HandlerBehavior.neverSettles Schedule.handlerFirst
        noHandlerEffects).handlerInvoked = false
    ∧ (run sampleEventNoUrl sampleContext standardLoggerBehavior
        HandlerBehavior.neverSettles Schedule.handlerFirst
        noHandlerEffects).armedDelays = []
    ∧ (run sampleEventNoUrl sampleContext standardLoggerBehavior
        HandlerBehavior.neverSettles Schedule.handlerFirst
        noHandlerEffects).responses = []
    ∧ (run sampleEventNoUrl sampleContext standardLoggerBehavior
        HandlerBehavior.neverSettles Schedule.handlerFirst
        noHandlerEffects).sendCalls = []
    ∧ (run sampleEventNoUrl sampleContext standardLoggerBehavior
        HandlerBehavior.neverSettles Schedule.handlerFirst
        noHandlerEffects).uncaught = [JsValue.error "ResponseURL missing"] :=
  c4_missing_response_url sampleEventNoUrl sampleContext standardLoggerBehavior
    HandlerBehavior.neverSettles Schedule.handlerFirst noHandlerEffects rfl

/-- C6: every handler rejection or synchronous throw (with a non-throwing
logger, a present callback URL and a known request type) is converted into a
single FAILED terminal response whose reason is the error's `.message` for an
`Error`, the string itself for a string, and `Unknown error: <stringified>`
for any other value; nothing escapes as an uncaught error or unhandled
rejection. -/
theorem c6_handler_error_to_failed (ev : Event) (ctx : Context)
    (logger : LoggerBehavior) (he : HandlerEffects) (err : JsValue)
    (sched : Schedule) (u : String)
    (hurl : ev.ResponseURL = some u)
    (hrt : ev.RequestType = "Create" ∨ ev.RequestType = "Update" ∨
      ev.RequestType = "Delete")
    (hlog : logger.noThrow) :
    ((run ev ctx logger (HandlerBehavior.syncThrow err) sched he).sendCalls
        = [("FAILED", errorMessage err)]
      ∧ (run ev ctx logger (HandlerBehavior.syncThrow err) sched he).uncaught
        = [])
    ∧ ((run ev ctx logger (HandlerBehavior.settles (Except.error err))
          Schedule.handlerFirst he).sendCalls = [("FAILED", errorMessage err)]
      ∧ (run ev ctx logger (HandlerBehavior.settles (Except.error err))
          Schedule.handlerFirst he).uncaught = [])
    ∧ (∀ m, errorMessage (JsValue.error m) = m)
    ∧ (∀ s, errorMessage (JsValue.str s) = s)
    ∧ (∀ j, errorMessage (JsValue.other j) = "Unknown error: " ++ j) := by
  obtain ⟨h1, h2, h3⟩ := hlog
  cases logger with
  | mk i d e =>
    subst h1
    subst h2
    subst h3
    refine ⟨⟨?_, ?_⟩, ⟨?_, ?_⟩, fun m => rfl, fun s => rfl, fun j => rfl⟩ <;>
      (rw [run_valid _ _ _ _ _ _ _ hurl rfl hrt]; rfl)

theorem c6_handler_error_to_failed_witness :
    (run sampleCreateEvent sampleContext standardLoggerBehavior
        (HandlerBehavior.syncThrow (JsValue.error "boom"))
        Schedule.handlerFirst noHandlerEffects).sendCalls
      = [("FAILED", "boom")]
    ∧ (run sampleCreateEvent sampleContext standardLoggerBehavior
        (HandlerBehavior.settles (Except.error (JsValue.error "boom")))
        Schedule.handlerFirst noHandlerEffects).sendCalls
      = [("FAILED", "boom")] := by
  have h := c6_handler_error_to_failed sampleCreateEvent sampleContext
    standardLoggerBehavior noHandlerEffects (JsValue.error "boom")
    Schedule.handlerFirst "https://example.com/cb?x=1" rfl (Or.inl rfl)
    ⟨rfl, rfl, rfl⟩
  exact ⟨h.1.1, h.2.1.1⟩

/-- C1 counterexample: a Create invocation whose handler resolves after the
timeout fired transmits TWO terminal responses (and the completion callback
runs twice): the code clears only the timer when sending, it has no guard
against a second `sendResponse` after the timeout path already sent one. -/
theorem c1_counterexample :
    (run sampleCreateEvent sampleContext standardLoggerBehavior
        (HandlerBehavior.settles (Except.ok ())) Schedule.timerFirst
        noHandlerEffects).sendCalls
      = [("FAILED", "Function timed out"),
         ("SUCCESS", "Create completed successfully")]
    ∧ (run sampleCreateEvent sampleContext standardLoggerBehavior
        (HandlerBehavior.settles (Except.ok ())) Schedule.timerFirst
        noHandlerEffects).responses.length = 2
    ∧ (run sampleCreateEvent sampleContext standardLoggerBehavior
        (HandlerBehavior.settles (Except.ok ())) Schedule.timerFirst
        noHandlerEffects).callbackCalls.length = 2 :=
  ⟨rfl, rfl, rfl⟩

/-- C1 amended: exactly one terminal response is transmitted whenever the
handler settles before the timeout fires, throws synchronously, or never
settles; but when the timeout fires before the handler settles, the later
settlement transmits a second response through the same path. -/
theorem c1_amended_single_response (ev : Event) (ctx : Context)
    (logger : LoggerBehavior) (r : Except JsValue Unit) (err : JsValue)
    (he : HandlerEffects) (sched : Schedule) (u : String)
    (hurl : ev.ResponseURL = some u)
    (hrt : ev.RequestType = "Create" ∨ ev.RequestType = "Update" ∨
      ev.RequestType = "Delete")
    (hlog : logger.noThrow) :
    (run ev ctx logger (HandlerBehavior.settles r) Schedule.handlerFirst
        he).sendCalls.length = 1
    ∧ (run ev ctx logger (HandlerBehavior.syncThrow err) sched
        he).sendCalls.length = 1
    ∧ (run ev ctx logger HandlerBehavior.neverSettles sched
        he).sendCalls.length = 1
    ∧ (run ev ctx logger (HandlerBehavior.settles r) Schedule.timerFirst
        he).sendCalls.length = 2 := by
  obtain ⟨h1, h2, h3⟩ := hlog
  cases logger with
  | mk i d e =>
    subst h1
    subst h2
    subst h3
    refine ⟨?_, ?_, ?_, ?_⟩ <;>
      rw [run_valid _ _ _ _ _ _ _ hurl rfl hrt]
    · cases r with
      | ok _ => rfl
      | error e2 => rfl
    · rfl
    · rfl
    · cases r with
      | ok _ => rfl
      | error e2 => rfl

theorem c1_amended_single_response_witness :
    (run sampleCreateEvent sampleContext standardLoggerBehavior
        (HandlerBehavior.settles (Except.ok ())) Schedule.handlerFirst
        noHandlerEffects).sendCalls.length = 1
    ∧ (run sampleCreateEvent sampleContext standardLoggerBehavior
        (HandlerBehavior.settles (Except.ok ())) Schedule.timerFirst
        noHandlerEffects).sendCalls.length = 2 := by
  have h := c1_amended_single_response sampleCreateEvent sampleContext
    standardLoggerBehavior (Except.ok ()) (JsValue.error "boom")
    noHandlerEffects Schedule.handlerFirst "https://example.com/cb?x=1" rfl
    (Or.inl rfl) ⟨rfl, rfl, rfl⟩
  exact ⟨h.1, h.2.2.2⟩

/-- C3 counterexample: when the timeout guard fires, the transmitted terminal
response carries the reason argument `Function timed out`, not the claimed
`execution time exceeded`. -/
theorem c3_counterexample :
    (run sampleCreateEvent sampleContext standardLoggerBehavior
        HandlerBehavior.neverSettles Schedule.handlerFirst
        noHandlerEffects).sendCalls = [("FAILED", "Function timed out")]
    ∧ (run sampleCreateEvent sampleContext standardLoggerBehavior
        HandlerBehavior.neverSettles Schedule.handlerFirst
        noHandlerEffects).sendCalls ≠ [("FAILED", "execution time exceeded")] :=
  ⟨rfl, by decide⟩

/-- C3 amended: when the timeout guard fires before any other terminal
transition, it was armed exactly once with delay
`remainingTimeMillis - 1000`, and the transmitted terminal response has status
FAILED with reason `Function timed out`. -/
theorem c3_amended_timeout_response (ev : Event) (ctx : Context)
    (logger : LoggerBehavior) (he : HandlerEffects) (sched : Schedule)
    (u : String)
    (hurl : ev.ResponseURL = some u)
    (hrt : ev.RequestType = "Create" ∨ ev.RequestType = "Update" ∨
      ev.RequestType = "Delete")
    (hlog : logger.noThrow) :
    (run ev ctx logger HandlerBehavior.neverSettles sched he).armedDelays
        = [(ctx.remainingTimeMillis : Int) - 1000]
    ∧ (run ev ctx logger HandlerBehavior.neverSettles sched he).sendCalls
        = [("FAILED", "Function timed out")]
    ∧ (run ev ctx logger HandlerBehavior.neverSettles sched he).responses
        = [sendResponseBody (stateAfterHandler ev ctx he) "FAILED"
            "Function timed out"]
    ∧ (sendResponseBody (stateAfterHandler ev ctx he) "FAILED"
        "Function timed out").Status = "FAILED" := by
  obtain ⟨h1, h2, h3⟩ := hlog
  cases logger with
  | mk i d e =>
    subst h1
    subst h2
    subst h3
    refine ⟨?_, ?_, ?_, rfl⟩ <;>
      (rw [run_valid _ _ _ _ _ _ _ hurl rfl hrt]; rfl)

theorem c3_amended_timeout_response_witness :
    (run sampleCreateEvent sampleContext standardLoggerBehavior
        HandlerBehavior.neverSettles Schedule.handlerFirst
        noHandlerEffects).armedDelays = [29000]
    ∧ (run sampleCreateEvent sampleContext standardLoggerBehavior
        HandlerBehavior.neverSettles Schedule.handlerFirst
        noHandlerEffects).sendCalls = [("FAILED", "Function timed out")] := by
  have h := c3_amended_timeout_response sampleCreateEvent sampleContext
    standardLoggerBehavior noHandlerEffects Schedule.handlerFirst
    "https://example.com/cb?x=1" rfl (Or.inl rfl) ⟨rfl, rfl, rfl⟩
  exact ⟨h.1, h.2.1⟩

/-- C9 counterexample: a logger whose `info` method throws aborts `handle`
before the timeout is armed and before any dispatch, so no response at all is
transmitted and the thrown value escapes uncaught, while the very same
invocation with the non-throwing `StandardLogger` transmits one response —
contradicting the claim that a throwing logger never changes or suppresses
the terminal outcome. -/
theorem c9_counterexample :
    (run sampleCreateEvent sampleContext throwingLogger
        (HandlerBehavior.settles (Except.ok ())) Schedule.handlerFirst
        noHandlerEffects).responses = []
    ∧ (run sampleCreateEvent sampleContext throwingLogger
        (HandlerBehavior.settles (Except.ok ())) Schedule.handlerFirst
        noHandlerEffects).uncaught = [JsValue.error "logger throws"]
    ∧ (run sampleCreateEvent sampleContext throwingLogger
        (HandlerBehavior.settles (Except.ok ())) Schedule.handlerFirst
        noHandlerEffects).armedDelays = []
    ∧ (run sampleCreateEvent sampleContext standardLoggerBehavior
        (HandlerBehavior.settles (Except.ok ())) Schedule.handlerFirst
        noHandlerEffects).responses.length = 1 :=
  ⟨rfl, rfl, rfl, rfl⟩

/-- C9 amended: the whole invocation result is identical for any two loggers
none of whose methods throw — the engine ignores every logger return value —
while a logger whose `info` method throws suppresses the invocation before
the timeout is armed, leaving the thrown value uncaught and transmitting no
response. -/
theorem c9_amended_logger_independence (ev : Event) (ctx : Context)
    (hb : HandlerBehavior) (sched : Schedule) (he : HandlerEffects)
    (l1 l2 : LoggerBehavior) (h1 : l1.noThrow) (h2 : l2.noThrow) :
    run ev ctx l1 hb sched he = run ev ctx l2 hb sched he
    ∧ (∀ (l3 : LoggerBehavior) (e : JsValue) (u : String),
        ev.ResponseURL = some u → l3.infoThrows = some e →
        (run ev ctx l3 hb sched he).responses = []
        ∧ (run ev ctx l3 hb sched he).uncaught = [e]) := by
  constructor
  · obtain ⟨a1, b1, c1⟩ := h1
    obtain ⟨a2, b2, c2⟩ := h2
    cases l1 with
    | mk i1 d1 e1 =>
      cases l2 with
      | mk i2 d2 e2 =>
        subst a1
        subst b1
        subst c1
        subst a2
        subst b2
        subst c2
        rfl
  · intro l3 e u hu hi
    have hrun : run ev ctx l3 hb sched he =
        { emptyRunResult with uncaught := [e] } := by
      unfold run
      rw [hu, hi]
    rw [hrun]
    exact ⟨rfl, rfl⟩

theorem c9_amended_logger_independence_witness :
    run sampleCreateEvent sampleContext standardLoggerBehavior
        (HandlerBehavior.settles (Except.ok ())) Schedule.handlerFirst
        noHandlerEffects
      = run sampleCreateEvent sampleContext standardLoggerBehavior
        (HandlerBehavior.settles (Except.ok ())) Schedule.handlerFirst
        noHandlerEffects
    ∧ (run sampleCreateEvent sampleContext throwingLogger
        (HandlerBehavior.settles (Except.ok ())) Schedule.handlerFirst
        noHandlerEffects).uncaught = [JsValue.error "logger throws"] := by
  have h := c9_amended_logger_independence sampleCreateEvent sampleContext
    (HandlerBehavior.settles (Except.ok ())) Schedule.handlerFirst
    noHandlerEffects standardLoggerBehavior standardLoggerBehavior
    ⟨rfl, rfl, rfl⟩ ⟨rfl, rfl, rfl⟩
  exact ⟨h.1, (h.2 throwingLogger (JsValue.error "logger throws")
    "https://example.com/cb?x=1" rfl rfl).2⟩

/-- C2 counterexample: a Create event carrying (mistakenly) previous
properties with a differing value for key `a` reports `changed = true` and a
defined `before`, contradicting the claimed `changed = false` /
`previousValue = undefined`: the proxy never consults the request type. -/
theorem c2_counterexample :
    sampleCreateEventWithOld.RequestType = "Create"
    ∧ propertyValue sampleCreateEventWithOld "a" = some "2"
    ∧ propertyChanged sampleCreateEventWithOld "a" = true
    ∧ propertyBefore sampleCreateEventWithOld "a" = some "1" :=
  ⟨rfl, rfl, by decide, rfl⟩

/-- C2 amended: for every Create event with no `OldResourceProperties`, every
property key present in the current properties reports `changed = true` (the
old entry stringifies to undefined, the present value does not) and `before`
undefined; when previous properties are supplied the proxy compares against
them regardless of the request type. -/
theorem c2_amended_create_changed (e : Event) (key v : String)
    (_hreq : e.RequestType = "Create")
    (hold : e.OldResourceProperties = none)
    (hval : propertyValue e key = some v) :
    propertyChanged e key = true ∧ propertyBefore e key = none := by
  have hb : propertyBefore e key = none := by
    unfold propertyBefore
    rw [hold]
    rfl
  constructor
  · unfold propertyChanged
    rw [hb, hval]
    rfl
  · exact hb

theorem c2_amended_create_changed_witness :
    propertyChanged sampleCreateEvent "name" = true
    ∧ propertyBefore sampleCreateEvent "name" = none :=
  c2_amended_create_changed sampleCreateEvent "name" "p1" rfl rfl rfl

/-- C7: for every Update event and every property key present in both the
current and previous maps with differing string values, `changed = true` and
`before` is the prior map's entry; equality is structural on the string
values (via the injective `JSON.stringify` rendering), not identity. -/
theorem c7_update_changed (e : Event) (key cur old : String) (oldMap : PropMap)
    (_hreq : e.RequestType = "Update")
    (hold : e.OldResourceProperties = some oldMap)
    (hcur : propertyValue e key = some cur)
    (hprev : propGet oldMap key = some old)
    (hne : cur ≠ old) :
    propertyChanged e key = true ∧ propertyBefore e key = some old := by
  have hb : propertyBefore e key = some old := by
    unfold propertyBefore
    rw [hold]
    simpa using hprev
  refine ⟨?_, hb⟩
  unfold propertyChanged
  rw [hb, hcur]
  simp only [jsStringifyOptString, decide_eq_true_eq]
  intro hcontra
  injection hcontra with h
  exact hne (jsonStringifyString_injective h).symm

theorem c7_update_changed_witness :
    propertyChanged sampleUpdateEvent "a" = true
    ∧ propertyBefore sampleUpdateEvent "a" = some "1" :=
  c7_update_changed sampleUpdateEvent "a" "2" "1" [("a", "1")] rfl rfl rfl rfl
    (by decide)

/-- C5: the `PhysicalResourceId` of the response body follows the precedence
chain of `sendResponse`: a value held in the instance field (set via the
setter, including the event-supplied ID the constructor copies in when
truthy) appears verbatim; otherwise the `name` entry of the resource
properties; otherwise the log-stream name — a total, never-failing
resolution. -/
theorem c5_physical_resource_id (st : CRState) (status reason : String)
    (e : Event) (ctx : Context) :
    (∀ v, st.physicalResourceId = some v →
      (sendResponseBody st status reason).PhysicalResourceId = v)
    ∧ (∀ v, (sendResponseBody (setPhysicalResourceId st v) status
        reason).PhysicalResourceId = v)
    ∧ (∀ n, st.physicalResourceId = none →
        propGet st.event.ResourceProperties "name" = some n →
        (sendResponseBody st status reason).PhysicalResourceId = n)
    ∧ (st.physicalResourceId = none →
        propGet st.event.ResourceProperties "name" = none →
        (sendResponseBody st status reason).PhysicalResourceId
          = st.context.logStreamName)
    ∧ (∀ v, e.PhysicalResourceId = some v → v ≠ "" →
        (initialState e ctx).physicalResourceId = some v) := by
  refine ⟨?_, ?_, ?_, ?_, ?_⟩
  · intro v hv
    unfold sendResponseBody
    rw [hv]
    rfl
  · intro v
    rfl
  · intro n h1 h2
    unfold sendResponseBody
    rw [h1, h2]
    rfl
  · intro h1 h2
    unfold sendResponseBody
    rw [h1, h2]
    rfl
  · intro v hv hne
    unfold initialState
    simp only [hv]
    rw [if_neg hne]
    rfl

theorem c5_physical_resource_id_witness :
    (sendResponseBody sampleStateWithPid "SUCCESS" "ok").PhysicalResourceId
      = "pid-1"
    ∧ (sendResponseBody sampleStateNoPid "SUCCESS" "ok").PhysicalResourceId
      = "p1"
    ∧ (sendResponseBody sampleStateNoPidNoName "SUCCESS"
        "ok").PhysicalResourceId = "stream-1"
    ∧ (initialState sampleUpdateEventWithPid
        sampleContext).physicalResourceId = some "pid-7" := by
  have h1 := c5_physical_resource_id sampleStateWithPid "SUCCESS" "ok"
    sampleUpdateEventWithPid sampleContext
  have h2 := c5_physical_resource_id sampleStateNoPid "SUCCESS" "ok"
    sampleUpdateEventWithPid sampleContext
  have h3 := c5_physical_resource_id sampleStateNoPidNoName "SUCCESS" "ok"
    sampleUpdateEventWithPid sampleContext
  exact ⟨h1.1 "pid-1" rfl, h2.2.2.1 "p1" rfl rfl, h3.2.2.2.1 rfl rfl,
    h1.2.2.2.2 "pid-7" rfl (by decide)⟩

set_option maxHeartbeats 1600000 in
/-- C8 (code-bug exhibit): the request options always carry an empty
content-type header, and the content-length header equals the UTF-16
code-unit count `bodyString.length`; at a body containing a non-ASCII
character this differs from the byte length of the UTF-8 bytes
`request.write(bodyString)` actually transmits, so the header does not carry
the exact byte length the spec requires. -/
theorem c8_content_length :
    (∀ st status reason,
      (sendResponseOptions st status reason).contentType = "")
    ∧ (∀ st status reason,
      (sendResponseOptions st status reason).contentLength
        = utf16Length (jsonStringifyResponseBody
            (sendResponseBody st status reason)))
    ∧ (sendResponseOptions sampleStateNonAscii "SUCCESS" "ok").contentLength
        ≠ utf8ByteLength (jsonStringifyResponseBody
            (sendResponseBody sampleStateNonAscii "SUCCESS" "ok")) := by
  refine ⟨fun st s r => rfl, fun st s r => rfl, ?_⟩
  decide

/-- C10: across any sequence of `addResponseValue` calls in one invocation,
the `Data` map of the sent response binds exactly the keys ever passed, each
to the value of the last call with that key (a later call overwrites, no
entry is ever removed), and the `Data` field is present — the empty map —
even when no call was made. -/
theorem c10_response_data (calls : List (String × String)) (k : String)
    (st : CRState) (status reason : String) :
    propGet (applyResponseValues calls) k = lastWrite calls k
    ∧ (propGet (applyResponseValues calls) k = none ↔ ∀ p ∈ calls, p.1 ≠ k)
    ∧ (sendResponseBody { st with responseData := applyResponseValues calls }
        status reason).Data = applyResponseValues calls
    ∧ applyResponseValues [] = ([] : PropMap) := by
  have hmain : propGet (applyResponseValues calls) k = lastWrite calls k := by
    unfold applyResponseValues lastWrite
    rw [foldl_recordSet_lookup]
    simp [propGet]
  refine ⟨hmain, ?_, rfl, rfl⟩
  rw [hmain]
  unfold lastWrite
  constructor
  · intro h p hp
    have hfind : calls.reverse.find? (fun p => p.1 == k) = none := by
      cases hf : calls.reverse.find? (fun p => p.1 == k) with
      | none => rfl
      | some q => rw [hf] at h; simp at h
    have := List.find?_eq_none.mp hfind p (List.mem_reverse.mpr hp)
    simpa using this
  · intro h
    have hfind : calls.reverse.find? (fun p => p.1 == k) = none := by
      apply List.find?_eq_none.mpr
      intro p hp
      have := h p (List.mem_reverse.mp hp)
      simpa using this
    rw [hfind]
    rfl

end AwsCfnCustomResource
